import Mathlib

/-!
Verification of the income-distribution harmonization core of the
`prj-geo-financeiro` repository: the free-text label parser and the
synthetic-median estimator of `load_census_sector_income.py`, and the
granularity dispatch of `load_census.py`.  Python floats are modelled by
`ℚ`, Python `None` by `Option`, and the regular expressions of the parser
by a small backtracking engine with `re.search` semantics.
-/

/-- Python whitespace characters recognised by `str.strip` and the regex
class `\s` (restricted to the ASCII range, which covers the source data). -/
def isPySpace (c : Char) : Bool :=
  c == ' ' || c == '\t' || c == '\n' || c == '\r' || c == '\x0b' || c == '\x0c'

/-- Upper/lower pairs realising Python `str.lower` on the label alphabet:
ASCII letters plus the accented uppercase letters used in Portuguese. -/
def lowerPairs : List (Char × Char) :=
  [('A', 'a'), ('B', 'b'), ('C', 'c'), ('D', 'd'), ('E', 'e'), ('F', 'f'),
   ('G', 'g'), ('H', 'h'), ('I', 'i'), ('J', 'j'), ('K', 'k'), ('L', 'l'),
   ('M', 'm'), ('N', 'n'), ('O', 'o'), ('P', 'p'), ('Q', 'q'), ('R', 'r'),
   ('S', 's'), ('T', 't'), ('U', 'u'), ('V', 'v'), ('W', 'w'), ('X', 'x'),
   ('Y', 'y'), ('Z', 'z'),
   ('Á', 'á'), ('Â', 'â'), ('Ã', 'ã'), ('À', 'à'), ('Ç', 'ç'), ('É', 'é'),
   ('Ê', 'ê'), ('Í', 'í'), ('Ó', 'ó'), ('Ô', 'ô'), ('Õ', 'õ'), ('Ú', 'ú'),
   ('Ü', 'ü')]

/-- First-match lookup in an association list of characters. -/
def lowerLookup : List (Char × Char) → Char → Option Char
  | [], _ => none
  | p :: rest, c => if c = p.1 then some p.2 else lowerLookup rest c

/-- Python `str.lower` on one character of the label alphabet. -/
def pyLower (c : Char) : Char :=
  match lowerLookup lowerPairs c with
  | some l => l
  | none => c

/-- Python `str.strip`: drop whitespace from both ends. -/
def pyStrip (cs : List Char) : List Char :=
  ((cs.dropWhile isPySpace).reverse.dropWhile isPySpace).reverse

/-- `label.strip().lower()` as performed at the top of
`parse_bounds_from_label`. -/
def normalizeLabel (label : String) : List Char :=
  (pyStrip label.data).map pyLower

/-- A label string with every character lower-cased, the case-folded
variant of the label. -/
def lowerCaseLabel (label : String) : String :=
  String.mk (label.data.map pyLower)

/-- Substring test, modelling Python `pat in s`. -/
def containsSub (pat : List Char) : List Char → Bool
  | [] => pat.isEmpty
  | c :: cs => pat.isPrefixOf (c :: cs) || containsSub pat cs

/-!
A small backtracking regular-expression engine with Python `re.search`
semantics for the fragment the source uses: literals, single-character
classes, greedy `*`, `+` and `?`, alternation, two capture groups and the
`$` anchor.  Matching enumerates the (remainder, captures) alternatives in
exactly the priority order a backtracking engine explores them, so the head
of the list is the match Python returns.
-/

/-- Captures of groups 1 and 2. -/
abbrev Caps := Option (List Char) × Option (List Char)

inductive RE where
  | eps
  | lit (s : List Char)
  | cls (p : Char → Bool)
  | seq (a b : RE)
  | alt (a b : RE)
  | star (p : Char → Bool)
  | plus (p : Char → Bool)
  | opt (r : RE)
  | grp1 (r : RE)
  | grp2 (r : RE)
  | eos

/-- Remainders after consuming `0..k` leading characters satisfying `p`
(`k` maximal), longest consumption first: the greedy order for `p*`. -/
def starRems (p : Char → Bool) : List Char → List (List Char)
  | [] => [[]]
  | c :: cs => if p c then starRems p cs ++ [c :: cs] else [c :: cs]

/-- Greedy remainders for `p+`: at least one character consumed. -/
def plusRems (p : Char → Bool) : List Char → List (List Char)
  | [] => []
  | c :: cs => if p c then starRems p cs else []

/-- All ways a pattern can match a prefix of the input, as
(remainder, captures) pairs in backtracking priority order. -/
def RE.mtch : RE → List Char → Caps → List (List Char × Caps)
  | .eps, cs, k => [(cs, k)]
  | .lit s, cs, k =>
      if s.isPrefixOf cs then [(cs.drop s.length, k)] else []
  | .cls _, [], _ => []
  | .cls p, c :: cs, k => if p c then [(cs, k)] else []
  | .seq a b, cs, k => (a.mtch cs k).flatMap (fun x => b.mtch x.1 x.2)
  | .alt a b, cs, k => a.mtch cs k ++ b.mtch cs k
  | .star p, cs, k => (starRems p cs).map (fun r => (r, k))
  | .plus p, cs, k => (plusRems p cs).map (fun r => (r, k))
  | .opt r, cs, k => r.mtch cs k ++ [(cs, k)]
  | .grp1 r, cs, k =>
      (r.mtch cs k).map (fun x => (x.1, (some (cs.take (cs.length - x.1.length)), x.2.2)))
  | .grp2 r, cs, k =>
      (r.mtch cs k).map (fun x => (x.1, (x.2.1, some (cs.take (cs.length - x.1.length)))))
  | .eos, cs, k => if cs.isEmpty then [(cs, k)] else []

/-- Python `re.search`: try to match at each start position from the left;
the first position that matches wins, with that position's highest-priority
captures. -/
def RE.searchFrom (r : RE) : List Char → Option Caps
  | [] =>
      match (r.mtch [] (none, none)).head? with
      | some x => some x.2
      | none => none
  | c :: cs =>
      match (r.mtch (c :: cs) (none, none)).head? with
      | some x => some x.2
      | none => r.searchFrom cs

/-- Concatenation of a list of patterns. -/
def reCat (l : List RE) : RE := l.foldr RE.seq RE.eps

/-- Character class `[0-9]`. -/
def digitCls : Char → Bool := fun c => '0' ≤ c && c ≤ '9'

/-- Regex `.` (any character except a newline). -/
def dotCls : Char → Bool := fun c => c != '\n'

/-- Character class `[aá]`. -/
def aAcuteCls : Char → Bool := fun c => c == 'a' || c == 'á'

/-- Character class `[eé]`. -/
def eAcuteCls : Char → Bool := fun c => c == 'e' || c == 'é'

/-- Character class `[\.,]`. -/
def sepCls : Char → Bool := fun c => c == '.' || c == ','

/-- `[0-9]+(?:\/[0-9]+)?`, the body of `frac_pattern`. -/
def fracRE : RE :=
  .seq (.plus digitCls) (.opt (.seq (.lit ['/']) (.plus digitCls)))

/-- `[0-9]+(?:[\.,][0-9]+)?`, the body of the R$ amount group. -/
def numRE : RE :=
  .seq (.plus digitCls) (.opt (.seq (.cls sepCls) (.plus digitCls)))

/-- `(sm|sal[aá]rio)`. -/
def smTokRE : RE :=
  .alt (.lit "sm".data) (reCat [.lit "sal".data, .cls aAcuteCls, .lit "rio".data])

/-- `até\s*([0-9]+(?:\/[0-9]+)?).*(sm|sal[aá]rio)`. -/
def reSmUpTo : RE :=
  reCat [.lit "até".data, .star isPySpace, .grp1 fracRE, .star dotCls, smTokRE]

/-- `mais de\s*(frac).*a\s*(frac).*(sm|sal[aá]rio)`. -/
def reSmRange : RE :=
  reCat [.lit "mais de".data, .star isPySpace, .grp1 fracRE, .star dotCls,
         .lit "a".data, .star isPySpace, .grp2 fracRE, .star dotCls, smTokRE]

/-- `mais de\s*(frac).*(sm|sal[aá]rio)`. -/
def reSmOpen : RE :=
  reCat [.lit "mais de".data, .star isPySpace, .grp1 fracRE, .star dotCls, smTokRE]

/-- `at[eé]\s*([0-9]+(?:[\.,][0-9]+)?)`. -/
def reRsUpTo : RE :=
  reCat [.lit "at".data, .cls eAcuteCls, .star isPySpace, .grp1 numRE]

/-- `mais de\s*(num)\s*a\s*(num)`. -/
def reRsRange : RE :=
  reCat [.lit "mais de".data, .star isPySpace, .grp1 numRE, .star isPySpace,
         .lit "a".data, .star isPySpace, .grp2 numRE]

/-- `mais de\s*(num)$`. -/
def reRsOpen : RE :=
  reCat [.lit "mais de".data, .star isPySpace, .grp1 numRE, .eos]

/-- Which textual pattern of `parse_bounds_from_label` matched, with the raw
captured numerals.  This is the sm-independent part of the parser: the
branch taken and the captured strings never depend on the minimum-wage
value. -/
inductive RawShape where
  | zeroIncome
  | smUpTo (x : List Char)
  | smRange (a b : List Char)
  | smOpen (a : List Char)
  | rsUpTo (v : List Char)
  | rsRange (a b : List Char)
  | rsOpen (a : List Char)
  | noMatch
deriving DecidableEq

/-- The pattern cascade of `parse_bounds_from_label`, in source order:
"sem rendimento" first; then, when a minimum-wage token occurs in the
label, the three SM patterns; then (also when no SM pattern matched, since
that branch has no early exit) the three R$ patterns. -/
def rawShape (label : String) : RawShape :=
  let s := normalizeLabel label
  if containsSub "sem rendimento".data s then .zeroIncome
  else
    let smResult : Option RawShape :=
      if containsSub "salário".data s || containsSub "salario".data s ||
          containsSub "sm".data s then
        match reSmUpTo.searchFrom s with
        | some (some x, _) => some (.smUpTo x)
        | _ =>
          match reSmRange.searchFrom s with
          | some (some a, some b) => some (.smRange a b)
          | _ =>
            match reSmOpen.searchFrom s with
            | some (some a, _) => some (.smOpen a)
            | _ => none
      else none
    match smResult with
    | some r => r
    | none =>
      match reRsUpTo.searchFrom s with
      | some (some v, _) => .rsUpTo v
      | _ =>
        match reRsRange.searchFrom s with
        | some (some a, some b) => .rsRange a b
        | _ =>
          match reRsOpen.searchFrom s with
          | some (some a, _) => .rsOpen a
          | _ => .noMatch

/-- Numeric value of a digit string. -/
def digitsToNat (cs : List Char) : Nat :=
  cs.foldl (fun n c => 10 * n + (c.toNat - '0'.toNat)) 0

/-- `eval_fraction`: "n/d" is n divided by d, a plain numeral is its value.
(In the source a zero denominator would raise; in `ℚ` it yields 0; no
theorem below depends on that corner.) -/
def evalFraction (cs : List Char) : ℚ :=
  if cs.contains '/' then
    (digitsToNat (cs.takeWhile (· != '/')) : ℚ) /
      (digitsToNat ((cs.dropWhile (· != '/')).drop 1) : ℚ)
  else (digitsToNat cs : ℚ)

/-- `to_float`: drop thousands separators `.`, then read `,` as the decimal
point. -/
def toFloatQ (cs : List Char) : ℚ :=
  let t := cs.filter (· != '.')
  if t.contains ',' then
    (digitsToNat (t.takeWhile (· != ',')) : ℚ) +
      (digitsToNat ((t.dropWhile (· != ',')).drop 1) : ℚ) /
        (10 : ℚ) ^ ((t.dropWhile (· != ',')).drop 1).length
  else (digitsToNat t : ℚ)

/-- `parse_bounds_from_label(label, sm)`: numeric (min, max) bounds in R$,
with `none` components modelling Python `None`. -/
def parse_bounds_from_label (label : String) (sm : ℚ) : Option ℚ × Option ℚ :=
  match rawShape label with
  | .zeroIncome => (some 0, some 0)
  | .smUpTo x => (some 0, some (evalFraction x * sm))
  | .smRange a b => (some (evalFraction a * sm), some (evalFraction b * sm))
  | .smOpen a => (some (evalFraction a * sm), none)
  | .rsUpTo v => (some 0, some (toFloatQ v))
  | .rsRange a b => (some (toFloatQ a), some (toFloatQ b))
  | .rsOpen a => (some (toFloatQ a), none)
  | .noMatch => (none, none)

/-- One weighted income class `(min, max, freq)`; `none` models Python
`None` (open upper bound, missing frequency). -/
structure WClass where
  lo : Option ℚ
  hi : Option ℚ
  fr : Option ℚ
deriving DecidableEq

/-- The sort key comparison of
`sorted(classes, key = lower bound, None as negative infinity)`. -/
def loLEb (x y : WClass) : Bool :=
  match x.lo, y.lo with
  | none, _ => true
  | some _, none => false
  | some a, some b => decide (a ≤ b)

def loLE (x y : WClass) : Prop := loLEb x y = true

instance : DecidableRel loLE := fun _ _ => inferInstanceAs (Decidable (_ = true))

instance : IsTotal WClass loLE :=
  ⟨by
    intro x y
    unfold loLE loLEb
    rcases hx : x.lo with _ | a <;> rcases hy : y.lo with _ | b <;> simp
    exact le_total a b⟩

instance : IsTrans WClass loLE :=
  ⟨by
    intro x y z
    unfold loLE loLEb
    rcases x.lo with _ | a <;> rcases y.lo with _ | b <;> rcases z.lo with _ | c <;> simp
    exact le_trans⟩

/-- The scan of the sorted class list: classes with missing or zero
frequency are skipped; the first class whose cumulative frequency reaches
the target is interpolated, or truncated at its lower bound when its upper
bound is open or degenerate.  Returns `none` when the walk exhausts the
list without reaching the target. -/
def medianLoop (target : ℚ) : ℚ → List WClass → Option ℚ
  | _, [] => none
  | cum, c :: rest =>
    match c.fr with
    | none => medianLoop target cum rest
    | some f =>
      if f = 0 then medianLoop target cum rest
      else if target ≤ cum + f then
        match c.hi with
        | none => some (c.lo.getD 0)
        | some b =>
          if b ≤ c.lo.getD 0 then some (c.lo.getD 0)
          else some (c.lo.getD 0 + ((target - cum) / f) * (b - c.lo.getD 0))
      else medianLoop target (cum + f) rest

/-- `synthetic_median_from_classes`: grouped-median linear interpolation.
`none` models the `NaN` returned for a non-positive total; the final
expression models the `classes[-1]` fallback of the source. -/
def synthetic_median_from_classes (classes : List WClass) : Option ℚ :=
  let sorted := classes.insertionSort loLE
  let total := (sorted.filterMap (·.fr)).sum
  if total ≤ 0 then none
  else
    match medianLoop (total / 2) 0 sorted with
    | some m => some m
    | none => some ((sorted.getLast?.map (fun c => c.lo.getD 0)).getD 0)

/-- The exceptions the estimator body could raise in Python. -/
inductive PyErr where
  | zeroDivision
  | indexError
deriving DecidableEq

/-- Division as Python performs it: raises on a zero divisor. -/
def qdivChecked (a b : ℚ) : Except PyErr ℚ :=
  if b = 0 then .error .zeroDivision else .ok (a / b)

/-- `medianLoop` with the interpolation division checked as Python would
check it. -/
def medianLoopChecked (target : ℚ) : ℚ → List WClass → Except PyErr (Option ℚ)
  | _, [] => .ok none
  | cum, c :: rest =>
    match c.fr with
    | none => medianLoopChecked target cum rest
    | some f =>
      if f = 0 then medianLoopChecked target cum rest
      else if target ≤ cum + f then
        match c.hi with
        | none => .ok (some (c.lo.getD 0))
        | some b =>
          if b ≤ c.lo.getD 0 then .ok (some (c.lo.getD 0))
          else
            match qdivChecked (target - cum) f with
            | .error e => .error e
            | .ok q => .ok (some (c.lo.getD 0 + q * (b - c.lo.getD 0)))
      else medianLoopChecked target (cum + f) rest

/-- The estimator with every operation that can raise in Python made
explicit: the interpolation division and the `classes[-1]` indexing of the
fallback. -/
def synthetic_median_checked (classes : List WClass) : Except PyErr (Option ℚ) :=
  let sorted := classes.insertionSort loLE
  let total := (sorted.filterMap (·.fr)).sum
  if total ≤ 0 then .ok none
  else
    match medianLoopChecked (total / 2) 0 sorted with
    | .error e => .error e
    | .ok (some m) => .ok (some m)
    | .ok none =>
      match sorted.getLast? with
      | none => .error .indexError
      | some c => .ok (some (c.lo.getD 0))

/-- One raw CSV row of `compute_median_from_csv`, after the numeric
coercion of `valor`. -/
structure IncomeRow where
  cd_mun : String
  categoria : String
  valor : ℚ
deriving DecidableEq

/-- The class list built for one municipality: each row's label is parsed,
rows whose bounds are both `None` are dropped, and the remaining rows
become `(a or 0.0, b, valor)` classes. -/
def rowClasses (rows : List IncomeRow) (sm : ℚ) (k : String) : List WClass :=
  (rows.filter (fun r => r.cd_mun == k)).filterMap (fun r =>
    match parse_bounds_from_label r.categoria sm with
    | (none, none) => none
    | (a, b) => some ⟨some (a.getD 0), b, some r.valor⟩)

/-- The group keys of `df.groupby("cd_mun")`: distinct unit codes in sorted
order. -/
def groupKeys (rows : List IncomeRow) : List String :=
  ((rows.map (·.cd_mun)).dedup).insertionSort (· ≤ ·)

/-- The per-municipality loop of `compute_median_from_csv`: groups with no
parseable class are skipped (`if not classes: continue`); every other group
yields one `(cd_mun, median)` row, `none` standing for `NaN`. -/
def compute_median_from_csv (rows : List IncomeRow) (sm : ℚ) :
    List (String × Option ℚ) :=
  (groupKeys rows).filterMap (fun k =>
    let cls := rowClasses rows sm k
    if cls.isEmpty then none
    else some (k, synthetic_median_from_classes cls))

/-- Administrative level inferred for an incoming unit-code column. -/
inductive Granularity where
  | Sector
  | Municipality
  | State
  | Unsupported
deriving DecidableEq

/-- Observable outcome of one `load_census.py` run: the level inferred for
the codes, whether the staging table was written, and whether an update was
applied to the target table. -/
structure CensusOutcome where
  granularity : Granularity
  stagingWritten : Bool
  updateApplied : Bool
deriving DecidableEq

/-- `df["cd_setor"].str.len().mode().iat[0]`: the most frequent value of a
list of naturals; pandas returns the modal values sorted ascending and
`.iat[0]` picks the smallest one. -/
def modeOf (l : List Nat) : Nat :=
  match l.insertionSort (· ≤ ·) with
  | [] => 0
  | m :: ms => ms.foldl (fun best x => if l.count best < l.count x then x else best) m

/-- The granularity dispatch of `load_census.py` (lines 116-179): the sector
path is taken when the integer-truncated mean code length is at least 13;
otherwise the modal length selects the municipality (7) or state (2) join,
and any other modal length applies no update.  The staging write sits
inside the non-sector branch only.  The sector path models a target table
carrying one of the recognised sector join columns, so its update
succeeds. -/
def censusRun (codes : List String) : CensusOutcome :=
  let lens := codes.map String.length
  let avgLen := lens.sum / lens.length
  if 13 ≤ avgLen then
    ⟨.Sector, false, true⟩
  else
    let idLen := modeOf lens
    if idLen = 7 then ⟨.Municipality, true, true⟩
    else if idLen = 2 then ⟨.State, true, true⟩
    else ⟨.Unsupported, true, false⟩

/-- The level `censusRun` classifies a code column as. -/
def resolveGranularity (codes : List String) : Granularity :=
  (censusRun codes).granularity

/-- Modelled from the spec: the classifier as §4.3 of the spec words it,
applying the §3 thresholds to the modal string length alone.  Stated only
to compare with `resolveGranularity`, the classifier the source
implements. -/
def resolveGranularityBySpec (codes : List String) : Granularity :=
  let m := modeOf (codes.map String.length)
  if 13 ≤ m then .Sector
  else if m = 7 then .Municipality
  else if m = 2 then .State
  else .Unsupported

/-- True when the label was recognised through one of the three
minimum-wage patterns. -/
def isSmShape : RawShape → Bool
  | .smUpTo _ => true
  | .smRange _ _ => true
  | .smOpen _ => true
  | _ => false

/-! Helper lemmas. -/

lemma censusRun_unsupported_no_update (codes : List String)
    (h : (censusRun codes).granularity = Granularity.Unsupported) :
    (censusRun codes).updateApplied = false := by
  simp only [censusRun] at h ⊢
  split_ifs at h ⊢
  simp_all

lemma foldl_modeBest_const (l : List Nat) (L : Nat) :
    ∀ ms : List Nat, (∀ x ∈ ms, x = L) →
      ms.foldl (fun best x => if l.count best < l.count x then x else best) L = L := by
  intro ms
  induction ms with
  | nil => intro _; rfl
  | cons a t ih =>
    intro h
    have ha : a = L := h a (List.mem_cons_self a t)
    have ht : ∀ x ∈ t, x = L := fun x hx => h x (List.mem_cons_of_mem a hx)
    subst ha
    simpa using ih ht

lemma modeOf_const (l : List Nat) (L : Nat) (hne : l ≠ [])
    (hL : ∀ x ∈ l, x = L) : modeOf l = L := by
  unfold modeOf
  have hperm := List.perm_insertionSort (fun a b => a ≤ b) l
  have hmem : ∀ x ∈ l.insertionSort (fun a b => a ≤ b), x = L := by
    intro x hx
    exact hL x (hperm.mem_iff.mp hx)
  have hlen : l.insertionSort (fun a b => a ≤ b) ≠ [] := by
    intro hcon
    apply hne
    have hq := hperm.length_eq
    rw [hcon] at hq
    exact List.length_eq_zero.mp hq.symm
  cases hs : l.insertionSort (fun a b => a ≤ b) with
  | nil => exact absurd hs hlen
  | cons m ms =>
    have hm : m = L := hmem m (hs ▸ List.mem_cons_self m ms)
    have hms : ∀ x ∈ ms, x = L := fun x hx => hmem x (hs ▸ List.mem_cons_of_mem m hx)
    subst hm
    exact foldl_modeBest_const l m ms hms

lemma sum_of_const (l : List Nat) (L : Nat) (hL : ∀ x ∈ l, x = L) :
    l.sum = l.length * L := by
  induction l with
  | nil => simp
  | cons a t ih =>
    have ha : a = L := hL a (List.mem_cons_self a t)
    have ht : ∀ x ∈ t, x = L := fun x hx => hL x (List.mem_cons_of_mem a hx)
    subst ha
    simp [ih ht, Nat.succ_mul, Nat.add_comm]

lemma evalFraction_nonneg (cs : List Char) : 0 ≤ evalFraction cs := by
  unfold evalFraction
  split_ifs
  case pos => exact div_nonneg (Nat.cast_nonneg _) (Nat.cast_nonneg _)
  case neg => exact Nat.cast_nonneg _

lemma toFloatQ_nonneg (cs : List Char) : 0 ≤ toFloatQ cs := by
  unfold toFloatQ
  dsimp only
  split_ifs
  case pos =>
    exact add_nonneg (Nat.cast_nonneg _)
      (div_nonneg (Nat.cast_nonneg _) (pow_nonneg (by norm_num) _))
  case neg => exact Nat.cast_nonneg _

lemma toFloatQ_pure (cs : List Char) (n : Nat) (hf : cs.filter (· != '.') = cs)
    (hc : cs.contains ',' = false) (hd : digitsToNat cs = n) : toFloatQ cs = (n : ℚ) := by
  unfold toFloatQ
  dsimp only
  rw [hf, hc, hd]
  simp

lemma evalFraction_half : evalFraction "1/2".data = 1 / 2 := by
  unfold evalFraction
  rw [if_pos (by decide : ("1/2".data.contains '/') = true),
    show digitsToNat ("1/2".data.takeWhile (· != '/')) = 1 from by decide,
    show digitsToNat (("1/2".data.dropWhile (· != '/')).drop 1) = 2 from by decide]
  norm_num

lemma toFloatQ_one : toFloatQ "1".data = 1 := by
  rw [toFloatQ_pure "1".data 1 (by decide) (by decide) (by decide)]
  norm_num

lemma lowerLookup_mem (pairs : List (Char × Char)) (c l : Char)
    (h : lowerLookup pairs c = some l) : (c, l) ∈ pairs := by
  induction pairs with
  | nil => simp [lowerLookup] at h
  | cons p rest ih =>
    unfold lowerLookup at h
    split_ifs at h with hc
    · cases h
      obtain ⟨u, v⟩ := p
      simp only at hc
      subst hc
      exact List.mem_cons_self _ _
    · exact List.mem_cons_of_mem _ (ih h)

lemma lowerPairs_snd_not_key : ∀ p ∈ lowerPairs, lowerLookup lowerPairs p.2 = none := by
  decide

lemma lowerPairs_no_space :
    ∀ p ∈ lowerPairs, isPySpace p.1 = false ∧ isPySpace p.2 = false := by
  decide

lemma pyLower_idem (c : Char) : pyLower (pyLower c) = pyLower c := by
  cases hl : lowerLookup lowerPairs c with
  | none =>
    have h1 : pyLower c = c := by unfold pyLower; rw [hl]
    rw [h1]
    exact h1
  | some l =>
    have h1 : pyLower c = l := by unfold pyLower; rw [hl]
    have hm : (c, l) ∈ lowerPairs := lowerLookup_mem _ _ _ hl
    have h2 : lowerLookup lowerPairs l = none := lowerPairs_snd_not_key (c, l) hm
    rw [h1]
    unfold pyLower
    rw [h2]

lemma isPySpace_pyLower (c : Char) : isPySpace (pyLower c) = isPySpace c := by
  cases hl : lowerLookup lowerPairs c with
  | none =>
    have h1 : pyLower c = c := by unfold pyLower; rw [hl]
    rw [h1]
  | some l =>
    have h1 : pyLower c = l := by unfold pyLower; rw [hl]
    have hm : (c, l) ∈ lowerPairs := lowerLookup_mem _ _ _ hl
    have hs := lowerPairs_no_space (c, l) hm
    rw [h1, hs.2, hs.1]

lemma normalizeLabel_lowerCase (label : String) :
    normalizeLabel (lowerCaseLabel label) = normalizeLabel label := by
  unfold normalizeLabel lowerCaseLabel pyStrip
  have hfun : isPySpace ∘ pyLower = isPySpace := funext isPySpace_pyLower
  have hmapmap : ∀ l : List Char, (l.map pyLower).map pyLower = l.map pyLower := by
    intro l
    rw [List.map_map]
    exact List.map_congr_left (fun c _ => pyLower_idem c)
  simp only [String.data]
  rw [List.dropWhile_map, hfun, ← List.map_reverse, List.dropWhile_map, hfun,
    ← List.map_reverse, hmapmap]

lemma loLE_antisymm_key (x y : WClass) (h1 : loLE x y) (h2 : loLE y x) :
    x.lo = y.lo := by
  unfold loLE loLEb at h1 h2
  rcases hx : x.lo with _ | a <;> rcases hy : y.lo with _ | b <;>
    rw [hx, hy] at h1 h2 <;> simp_all
  exact le_antisymm h1 h2

lemma sorted_perm_distinct_eq :
    ∀ l1 l2 : List WClass, l1.Perm l2 → l1.Sorted loLE → l2.Sorted loLE →
      l1.Pairwise (fun a b => a.lo ≠ b.lo) → l1 = l2 := by
  intro l1
  induction l1 with
  | nil =>
    intro l2 hp _ _ _
    exact (hp.symm.eq_nil).symm
  | cons a t1 ih =>
    intro l2 hp hs1 hs2 hd
    cases l2 with
    | nil => exact absurd hp.eq_nil (by simp)
    | cons b t2 =>
      have hab : a = b := by
        have hb1 : b ∈ a :: t1 := hp.symm.subset (List.mem_cons_self b t2)
        rcases List.mem_cons.mp hb1 with hba | hbt
        · exact hba.symm
        · have ha2 : a ∈ b :: t2 := hp.subset (List.mem_cons_self a t1)
          rcases List.mem_cons.mp ha2 with hab2 | hat
          · exact hab2
          · have h1 : loLE a b := (List.sorted_cons.mp hs1).1 b hbt
            have h2 : loLE b a := (List.sorted_cons.mp hs2).1 a hat
            have hkey : a.lo = b.lo := loLE_antisymm_key a b h1 h2
            have hne : a.lo ≠ b.lo := (List.pairwise_cons.mp hd).1 b hbt
            exact absurd hkey hne
      subst hab
      have ht : t1.Perm t2 := hp.cons_inv
      have heq : t1 = t2 :=
        ih t2 ht (List.sorted_cons.mp hs1).2 (List.sorted_cons.mp hs2).2
          (List.pairwise_cons.mp hd).2
      rw [heq]

lemma insertionSort_eq_of_perm_distinct (l1 l2 : List WClass)
    (hp : l1.Perm l2) (hd : l1.Pairwise (fun a b => a.lo ≠ b.lo)) :
    l1.insertionSort loLE = l2.insertionSort loLE := by
  apply sorted_perm_distinct_eq
  · exact (List.perm_insertionSort _ l1).trans (hp.trans (List.perm_insertionSort _ l2).symm)
  · exact List.sorted_insertionSort _ l1
  · exact List.sorted_insertionSort _ l2
  · exact ((List.perm_insertionSort loLE l1).pairwise_iff (fun h => h.symm)).mpr hd

lemma medianLoopChecked_ok (target : ℚ) :
    ∀ (cum : ℚ) (l : List WClass),
      medianLoopChecked target cum l = .ok (medianLoop target cum l) := by
  intro cum l
  induction l generalizing cum with
  | nil => rfl
  | cons c rest ih =>
    unfold medianLoop medianLoopChecked
    rcases hf : c.fr with _ | f
    · exact ih cum
    · dsimp only
      split_ifs with h0 ht
      · exact ih cum
      · rcases hb : c.hi with _ | b
        · rfl
        · dsimp only
          split_ifs with hble
          · rfl
          · unfold qdivChecked
            rw [if_neg h0]
      · exact ih (cum + f)

lemma sortedTotal_pos_ne_nil (classes : List WClass)
    (h : ¬ ((classes.insertionSort loLE).filterMap (·.fr)).sum ≤ 0) :
    classes.insertionSort loLE ≠ [] := by
  intro hcon
  rw [hcon] at h
  simp at h

/-! Claim theorems. -/

/-- C1 counterexample: on the mixed-length column ["22", two 13-digit
codes] the modal length is 13, so the spec's mode-based rule classifies
Sector, but the source gates the sector path on the truncated mean length
(9 here) and ends up at Unsupported with no update applied. -/
theorem c1_counterexample :
    resolveGranularityBySpec ["22", "1111111111111", "1111111111111"] =
      Granularity.Sector ∧
    resolveGranularity ["22", "1111111111111", "1111111111111"] =
      Granularity.Unsupported ∧
    (censusRun ["22", "1111111111111", "1111111111111"]).updateApplied = false := by
  decide

/-- C1 (amended): for every non-empty code column whose codes all share one
length L — the fixed-width situation the granularity levels produce — the
classification agrees with the mode rule: L of 13 or more yields Sector,
7 yields Municipality, 2 yields State, anything else Unsupported; and an
Unsupported run applies no update.  (With mixed lengths the source gates
the sector path on the truncated mean length, not the mode.) -/
theorem c1_granularity_fixed_width (codes : List String) (L : Nat)
    (hne : codes ≠ []) (hL : ∀ c ∈ codes, c.length = L) :
    resolveGranularity codes =
      (if 13 ≤ L then Granularity.Sector
       else if L = 7 then Granularity.Municipality
       else if L = 2 then Granularity.State
       else Granularity.Unsupported) ∧
    ((censusRun codes).granularity = Granularity.Unsupported →
      (censusRun codes).updateApplied = false) := by
  refine ⟨?_, censusRun_unsupported_no_update codes⟩
  have hlens : ∀ x ∈ codes.map String.length, x = L := by
    intro x hx
    rcases List.mem_map.mp hx with ⟨c, hc, rfl⟩
    exact hL c hc
  have hlne : codes.map String.length ≠ [] := by
    simpa using hne
  have hn : (codes.map String.length).length ≠ 0 := by
    simpa [List.length_eq_zero] using hlne
  have havg : (codes.map String.length).sum / (codes.map String.length).length = L := by
    rw [sum_of_const _ L hlens, Nat.mul_comm, Nat.mul_div_cancel _ (Nat.pos_of_ne_zero hn)]
  have hmode : modeOf (codes.map String.length) = L := modeOf_const _ L hlne hlens
  unfold resolveGranularity censusRun
  simp only [havg, hmode]
  split_ifs <;> rfl

/-- C1 witness: a homogeneous column of 7-digit codes resolves to
Municipality. -/
theorem c1_granularity_fixed_width_witness :
    resolveGranularity ["1234567", "7654321"] =
      (if 13 ≤ 7 then Granularity.Sector
       else if 7 = 7 then Granularity.Municipality
       else if 7 = 2 then Granularity.State
       else Granularity.Unsupported) :=
  (c1_granularity_fixed_width ["1234567", "7654321"] 7 (by decide) (by decide)).1

/-- C2: the estimator interpolates the worked example
[(0,100,10), (100,200,20), (200,null,10)] to exactly 150, and truncates the
single open-ended class [(500,null,5)] to its lower bound 500. -/
theorem c2_estimator_examples :
    synthetic_median_from_classes
        [⟨some 0, some 100, some 10⟩, ⟨some 100, some 200, some 20⟩,
         ⟨some 200, none, some 10⟩] = some 150 ∧
    synthetic_median_from_classes [⟨some 500, none, some 5⟩] = some 500 := by
  constructor <;>
    norm_num [synthetic_median_from_classes, List.insertionSort, List.orderedInsert,
      loLE, loLEb, medianLoop, List.filterMap_cons, List.sum_cons]

/-- C3 counterexample: two classes sharing the lower bound 0 but with
different upper bounds; the stable sort keeps the caller's order among
them, so the two orders of the same multiset give medians 100 and 200. -/
theorem c3_counterexample :
    (([⟨some 0, some 200, some 1⟩, ⟨some 0, some 100, some 1⟩] : List WClass).Perm
      [⟨some 0, some 100, some 1⟩, ⟨some 0, some 200, some 1⟩]) ∧
    synthetic_median_from_classes
      [⟨some 0, some 100, some 1⟩, ⟨some 0, some 200, some 1⟩] = some 100 ∧
    synthetic_median_from_classes
      [⟨some 0, some 200, some 1⟩, ⟨some 0, some 100, some 1⟩] = some 200 := by
  refine ⟨List.Perm.swap _ _ _, ?_, ?_⟩ <;>
    norm_num [synthetic_median_from_classes, List.insertionSort, List.orderedInsert,
      loLE, loLEb, medianLoop, List.filterMap_cons, List.sum_cons]

/-- C3 (amended): the estimator is permutation-invariant whenever the lower
bounds of the classes are pairwise distinct (the case for real bracket
data); with tied lower bounds the stable sort preserves caller order and
the result can depend on it. -/
theorem c3_perm_invariant_distinct_lowers (l1 l2 : List WClass)
    (hp : l1.Perm l2) (hd : l1.Pairwise (fun a b => a.lo ≠ b.lo)) :
    synthetic_median_from_classes l1 = synthetic_median_from_classes l2 := by
  unfold synthetic_median_from_classes
  rw [insertionSort_eq_of_perm_distinct l1 l2 hp hd]

/-- C3 witness: swapping two distinct-lower-bound classes leaves the
median unchanged. -/
theorem c3_perm_invariant_distinct_lowers_witness :
    synthetic_median_from_classes
        [⟨some 100, some 200, some 20⟩, ⟨some 0, some 100, some 10⟩] =
      synthetic_median_from_classes
        [⟨some 0, some 100, some 10⟩, ⟨some 100, some 200, some 20⟩] :=
  c3_perm_invariant_distinct_lowers _ _ (List.Perm.swap _ _ _)
    (by norm_num [List.pairwise_cons])

/-- C4 counterexample: the range pattern copies the label's two numerals
verbatim, so "mais de 210 a 105" parses to bounds (210, 105), both
non-null with lower greater than upper. -/
theorem c4_counterexample :
    parse_bounds_from_label "mais de 210 a 105" 1 = (some 210, some 105) ∧
    ¬ ((210 : ℚ) ≤ 105) := by
  have h : rawShape "mais de 210 a 105" = RawShape.rsRange "210".data "105".data := by
    decide
  have h210 : toFloatQ "210".data = 210 := by
    rw [toFloatQ_pure "210".data 210 (by decide) (by decide) (by decide)]
    norm_num
  have h105 : toFloatQ "105".data = 105 := by
    rw [toFloatQ_pure "105".data 105 (by decide) (by decide) (by decide)]
    norm_num
  refine ⟨?_, by norm_num⟩
  unfold parse_bounds_from_label
  rw [h]
  dsimp only
  rw [h210, h105]

/-- C4 (amended): for a non-negative minimum wage, every label parsed by a
zero-income or "up to" pattern satisfies lower ≤ upper when both bounds are
present; the two range patterns return the label's numerals verbatim, so
for them the invariant holds only when the label itself is
non-decreasing. -/
theorem c4_bounds_ordered_nonrange (label : String) (sm : ℚ) (hsm : 0 ≤ sm)
    (lo hi : ℚ)
    (hnr : ∀ a b, rawShape label ≠ RawShape.smRange a b ∧
      rawShape label ≠ RawShape.rsRange a b)
    (h : parse_bounds_from_label label sm = (some lo, some hi)) : lo ≤ hi := by
  unfold parse_bounds_from_label at h
  rcases hsh : rawShape label with _ | x | ⟨a, b⟩ | a | v | ⟨a, b⟩ | a | _ <;>
    rw [hsh] at h
  case zeroIncome =>
    simp only [Prod.mk.injEq, Option.some.injEq] at h
    rw [← h.1, ← h.2]
  case smUpTo =>
    simp only [Prod.mk.injEq, Option.some.injEq] at h
    rw [← h.1, ← h.2]
    exact mul_nonneg (evalFraction_nonneg x) hsm
  case smRange => exact absurd hsh (hnr a b).1
  case smOpen => simp at h
  case rsUpTo =>
    simp only [Prod.mk.injEq, Option.some.injEq] at h
    rw [← h.1, ← h.2]
    exact toFloatQ_nonneg v
  case rsRange => exact absurd hsh (hnr a b).2
  case rsOpen => simp at h
  case noMatch => simp at h

/-- C4 witness: "até 105" with minimum wage 1 yields an ordered interval. -/
theorem c4_bounds_ordered_nonrange_witness : (0 : ℚ) ≤ toFloatQ "105".data :=
  c4_bounds_ordered_nonrange "até 105" 1 zero_le_one 0 (toFloatQ "105".data)
    (by
      intro a b
      rw [show rawShape "até 105" = RawShape.rsUpTo "105".data from by decide]
      exact ⟨by simp, by simp⟩)
    rfl

/-- C5 counterexample: a pure sector-granularity run (one 13-digit code)
takes the sector path, which updates the target but never writes the
staging table. -/
theorem c5_counterexample :
    (censusRun ["1111111111111"]).granularity = Granularity.Sector ∧
    (censusRun ["1111111111111"]).updateApplied = true ∧
    (censusRun ["1111111111111"]).stagingWritten = false := by
  decide

/-- C5 (amended): the staging artifact is written in every non-sector run —
both when the update is applied (Municipality, State) and when it is
skipped (Unsupported); the sector path writes no staging table. -/
theorem c5_staging_nonsector (codes : List String)
    (h : (censusRun codes).granularity ≠ Granularity.Sector) :
    (censusRun codes).stagingWritten = true ∧
    ((censusRun codes).granularity = Granularity.Unsupported →
      (censusRun codes).updateApplied = false) := by
  refine ⟨?_, censusRun_unsupported_no_update codes⟩
  simp only [censusRun] at h ⊢
  split_ifs at h ⊢ <;> simp_all

/-- C5 witness: a state-granularity run stages and, being supported,
is not blocked from updating. -/
theorem c5_staging_nonsector_witness :
    (censusRun ["22"]).stagingWritten = true ∧
    ((censusRun ["22"]).granularity = Granularity.Unsupported →
      (censusRun ["22"]).updateApplied = false) :=
  c5_staging_nonsector ["22"] (by decide)

/-- C6 counterexample: a unit whose only label is unparseable is dropped by
`if not classes: continue` — the run output is empty, with no NaN entry for
the unit "X". -/
theorem c6_counterexample :
    compute_median_from_csv [⟨"X", "zzz", 1⟩] 1000 = [] := by
  rfl

/-- C6 (amended): the estimator returns NaN exactly as claimed whenever the
total frequency is non-positive, and a unit with at least one parseable
class always receives an output entry (whose value is that NaN when its
total is non-positive); but a unit all of whose labels are unparseable is
omitted from the output entirely rather than emitted as NaN. -/
theorem c6_median_emission :
    (∀ classes : List WClass, (classes.filterMap (·.fr)).sum ≤ 0 →
        synthetic_median_from_classes classes = none) ∧
    (∀ (rows : List IncomeRow) (sm : ℚ) (k : String),
        k ∈ rows.map (·.cd_mun) → rowClasses rows sm k ≠ [] →
        (k, synthetic_median_from_classes (rowClasses rows sm k)) ∈
          compute_median_from_csv rows sm) ∧
    (∀ (rows : List IncomeRow) (sm : ℚ) (k : String) (v : Option ℚ),
        rowClasses rows sm k = [] → (k, v) ∉ compute_median_from_csv rows sm) := by
  refine ⟨?_, ?_, ?_⟩
  · intro classes h
    have hperm : List.Perm ((classes.insertionSort loLE).filterMap (·.fr))
        (classes.filterMap (·.fr)) :=
      (List.perm_insertionSort loLE classes).filterMap _
    unfold synthetic_median_from_classes
    rw [if_pos]
    rw [hperm.sum_eq]
    exact h
  · intro rows sm k hk hne
    apply List.mem_filterMap.mpr
    refine ⟨k, ?_, ?_⟩
    · unfold groupKeys
      exact (List.perm_insertionSort _ _).mem_iff.mpr (List.mem_dedup.mpr hk)
    · dsimp only
      rw [if_neg]
      simpa using hne
  · intro rows sm k v hcls hmem
    obtain ⟨a, ha, hfa⟩ := List.mem_filterMap.mp hmem
    dsimp only at hfa
    split_ifs at hfa with he
    simp only [Option.some.injEq, Prod.mk.injEq] at hfa
    obtain ⟨hak, hv⟩ := hfa
    subst hak
    rw [hcls] at he
    simp at he

/-- C6 witness: a unit with one parseable class receives an entry. -/
theorem c6_median_emission_witness :
    ("X", synthetic_median_from_classes
        (rowClasses [⟨"X", "até 105", 2⟩] 1 "X")) ∈
      compute_median_from_csv [⟨"X", "até 105", 2⟩] 1 :=
  c6_median_emission.2.1 [⟨"X", "até 105", 2⟩] 1 "X" (by simp) (by decide)

/-- C7: for every label recognised through a minimum-wage pattern both
bounds scale linearly with the minimum wage (the value at sm is the value
at 1 multiplied componentwise by sm), and in particular
"até 1/2 salário mínimo" parses to (0, 500) at wage 1000 and to (0, 606)
at wage 1212, the fraction 1/2 being evaluated as a ratio. -/
theorem c7_sm_scaling (label : String) (sm : ℚ)
    (h : isSmShape (rawShape label) = true) :
    (parse_bounds_from_label label sm =
      ((parse_bounds_from_label label 1).1.map (· * sm),
       (parse_bounds_from_label label 1).2.map (· * sm))) ∧
    parse_bounds_from_label "até 1/2 salário mínimo" 1000 = (some 0, some 500) ∧
    parse_bounds_from_label "até 1/2 salário mínimo" 1212 = (some 0, some 606) := by
  refine ⟨?_, ?_, ?_⟩
  · unfold parse_bounds_from_label
    rcases hsh : rawShape label with _ | x | ⟨a, b⟩ | a | v | ⟨a, b⟩ | a | _ <;>
      rw [hsh] at h <;> simp [isSmShape] at h ⊢
  · unfold parse_bounds_from_label
    rw [show rawShape "até 1/2 salário mínimo" = RawShape.smUpTo "1/2".data from by decide]
    dsimp only
    rw [evalFraction_half]
    norm_num
  · unfold parse_bounds_from_label
    rw [show rawShape "até 1/2 salário mínimo" = RawShape.smUpTo "1/2".data from by decide]
    dsimp only
    rw [evalFraction_half]
    norm_num

/-- C7 witness: the scaling identity instantiated at
"até 1 salário mínimo" with minimum wage 7. -/
theorem c7_sm_scaling_witness :
    parse_bounds_from_label "até 1 salário mínimo" 7 =
      ((parse_bounds_from_label "até 1 salário mínimo" 1).1.map (· * 7),
       (parse_bounds_from_label "até 1 salário mínimo" 1).2.map (· * 7)) :=
  (c7_sm_scaling "até 1 salário mínimo" 7 (by decide)).1

/-- C8 counterexample: lowering case alone is handled, but stripping
accents changes the result — "Até 1/2 salário mínimo" parses to (0, 500)
at wage 1000 while its accent-stripped variant "ate 1/2 salario minimo"
falls out of the SM branch (whose regex requires the accented literal
"até") into the R$ pattern and parses to (0, 1). -/
theorem c8_counterexample :
    parse_bounds_from_label "Até 1/2 salário mínimo" 1000 = (some 0, some 500) ∧
    parse_bounds_from_label "ate 1/2 salario minimo" 1000 = (some 0, some 1) ∧
    parse_bounds_from_label "Até 1/2 salário mínimo" 1000 ≠
      parse_bounds_from_label "ate 1/2 salario minimo" 1000 := by
  have h1 : parse_bounds_from_label "Até 1/2 salário mínimo" 1000 =
      (some 0, some 500) := by
    unfold parse_bounds_from_label
    rw [show rawShape "Até 1/2 salário mínimo" = RawShape.smUpTo "1/2".data from by decide]
    dsimp only
    rw [evalFraction_half]
    norm_num
  have h2 : parse_bounds_from_label "ate 1/2 salario minimo" 1000 =
      (some 0, some 1) := by
    unfold parse_bounds_from_label
    rw [show rawShape "ate 1/2 salario minimo" = RawShape.rsUpTo "1".data from by decide]
    dsimp only
    rw [toFloatQ_one]
  refine ⟨h1, h2, ?_⟩
  rw [h1, h2]
  norm_num

/-- C8 (amended): parsing is insensitive to case — lower-casing the label
never changes the returned bounds, because the parser lower-cases first and
lower-casing is idempotent; it is not insensitive to diacritics. -/
theorem c8_case_insensitive (label : String) (sm : ℚ) :
    parse_bounds_from_label (lowerCaseLabel label) sm =
      parse_bounds_from_label label sm := by
  have hsh : rawShape (lowerCaseLabel label) = rawShape label := by
    unfold rawShape
    rw [normalizeLabel_lowerCase]
  unfold parse_bounds_from_label
  rw [hsh]

/-- C9: the estimator never raises: with the interpolation division and
the `classes[-1]` indexing modelled as checked operations, every input —
including the empty list and classes with null or zero frequency — yields
an ok result equal to the plain estimator's value, and the empty list
yields NaN through the total ≤ 0 check before any indexing. -/
theorem c9_estimator_total :
    (∀ classes : List WClass,
        synthetic_median_checked classes = .ok (synthetic_median_from_classes classes)) ∧
    synthetic_median_from_classes [] = none ∧
    synthetic_median_checked [] = .ok none := by
  have hmain : ∀ classes : List WClass,
      synthetic_median_checked classes = .ok (synthetic_median_from_classes classes) := by
    intro classes
    unfold synthetic_median_checked synthetic_median_from_classes
    dsimp only
    split_ifs with ht
    · rfl
    · rw [medianLoopChecked_ok]
      rcases hml : medianLoop (((classes.insertionSort loLE).filterMap (·.fr)).sum / 2) 0
          (classes.insertionSort loLE) with _ | m
      · have hne := sortedTotal_pos_ne_nil classes ht
        rcases hgl : (classes.insertionSort loLE).getLast? with _ | c
        · exact absurd (List.getLast?_eq_none_iff.mp hgl) hne
        · simp [hgl]
      · rfl
  refine ⟨hmain, ?_, ?_⟩
  · simp [synthetic_median_from_classes]
  · rw [hmain []]
    simp [synthetic_median_from_classes]

/-- C10: the parser never returns a half-specified interval missing only
its lower bound: whenever the upper bound is non-null the lower bound is
non-null as well. -/
theorem c10_no_half_interval (label : String) (sm : ℚ)
    (h : (parse_bounds_from_label label sm).2.isSome = true) :
    (parse_bounds_from_label label sm).1.isSome = true := by
  unfold parse_bounds_from_label at h ⊢
  rcases hsh : rawShape label <;> simp_all

/-- C10 witness: instantiated at "até 105". -/
theorem c10_no_half_interval_witness :
    (parse_bounds_from_label "até 105" 1).1.isSome = true :=
  c10_no_half_interval "até 105" 1 (by rfl)
